import Mathlib

/-!
Verification of the LLMTV segment-scheduling core: a shallow embedding of
the segment mapper (src/utils/transcriber.py), the assembler
(src/utils/video_stitcher.py), the bounded-concurrency collector and the
per-segment retry protocol (src/utils/video_generator.py), and the cached
lyrics stage (src/utils/llm_handler.py + src/utils/cache_manager.py),
together with theorems settling the specification's claims about them.
Durations are modelled as rationals, remote services as explicit oracles,
and the on-disk cache as an association list threaded through the calls.
-/

namespace LLMTV

/-- Python `str.strip()` on a string: drop leading and trailing whitespace
characters, modelled structurally on the character list. -/
def pyStrip (s : String) : String :=
  ⟨(((s.data.dropWhile Char.isWhitespace).reverse).dropWhile Char.isWhitespace).reverse⟩

/-- Python slicing `s[:n]`: the first `n` characters (code points). -/
def pySlice (s : String) (n : ℕ) : String :=
  ⟨s.data.take n⟩

/-! ### Segment mapper — src/utils/transcriber.py -/

/-- One transcript chunk as produced by the transcription service:
`{"text": ..., "timestamp": [start, end]}` where either endpoint may be
`None` (modelled by `Option`). -/
structure Chunk where
  text : String
  timestamp : Option ℚ × Option ℚ
deriving DecidableEq

/-- Transcription result: full text plus the chunk list. -/
structure Transcription where
  text : String
  chunks : List Chunk
deriving DecidableEq

/-- Embeds the overlap test of transcriber.py lines 96-104: chunks whose
timestamp has a `None` endpoint are skipped; otherwise the chunk is kept
iff `chunk_start < segment_end and chunk_end > segment_start`. -/
def overlapsWindow (segment_start segment_end : ℚ) (c : Chunk) : Bool :=
  match c.timestamp with
  | (some chunk_start, some chunk_end) =>
      decide (chunk_start < segment_end) && decide (chunk_end > segment_start)
  | _ => false

/-- Embeds transcriber.py lines 92-108: the lyrics attached to one window
are the stripped texts of the overlapping chunks joined by a single space,
falling back to the transcription's full text when no chunk overlaps. -/
def segmentText (transcription : Transcription) (segment_start segment_end : ℚ) : String :=
  let overlapping_lyrics :=
    (transcription.chunks.filter (overlapsWindow segment_start segment_end)).map
      (fun c => pyStrip c.text)
  if overlapping_lyrics.isEmpty then transcription.text
  else String.intercalate " " overlapping_lyrics

/-- Embeds `map_to_video_segments` (transcriber.py lines 62-112).
`Int.toNat ⌈song_duration / 8⌉` mirrors `math.ceil(song_duration / 8)`
fed to `range`, which is empty for non-positive counts. -/
def map_to_video_segments (transcription : Transcription) (song_duration : ℚ) :
    List (ℚ × ℚ × String) :=
  if transcription.chunks.isEmpty then
    let num_segments := Int.toNat ⌈song_duration / 8⌉
    (List.range num_segments).map fun (i : ℕ) =>
      ((i : ℚ) * 8, min (((i : ℚ) + 1) * 8) song_duration, transcription.text)
  else
    let num_segments := Int.toNat ⌈song_duration / 8⌉
    (List.range num_segments).map fun (i : ℕ) =>
      let segment_start := (i : ℚ) * 8
      let segment_end := min (((i : ℚ) + 1) * 8) song_duration
      (segment_start, segment_end, segmentText transcription segment_start segment_end)

/-! ### Assembler — src/utils/video_stitcher.py -/

/-- Embeds the clip-retention loop of `stitch_videos` (video_stitcher.py
lines 35-54): walk the clip durations in order; once the remaining
duration is non-positive, stop (`break`); a clip longer than the remaining
duration is trimmed to exactly that remainder (`subclip(0, remaining)`). -/
def retainClips : List ℚ → ℚ → ℚ → List ℚ
  | [], _, _ => []
  | clip_duration :: rest, song_duration, total_video_duration =>
    let remaining_duration := song_duration - total_video_duration
    if remaining_duration ≤ 0 then []
    else
      let kept :=
        if remaining_duration < clip_duration then remaining_duration else clip_duration
      kept :: retainClips rest song_duration (total_video_duration + kept)

/-- Embeds `stitch_videos` (video_stitcher.py lines 11-90) at the level of
durations: the result is the visual duration of the written output file.
`concatenate_videoclips` raises on an empty clip list (moviepy computes the
composite size as a `max` over the clips), which the function's
`try/except` re-raises before any output file is written; otherwise the
concatenated video is clamped to the audio track's duration (lines 68-69)
and written out. -/
def stitch_videos (clip_durations : List ℚ) (audio_duration song_duration : ℚ) :
    Except String ℚ :=
  let clips := retainClips clip_durations song_duration 0
  if clips.isEmpty then
    .error "Failed to stitch videos: cannot concatenate an empty list of clips"
  else
    let concatenated := clips.sum
    .ok (if audio_duration < concatenated then audio_duration else concatenated)

/-! ### Bounded-concurrency collector — src/utils/video_generator.py -/

/-- Python truthiness of an optional string (`if error:` / `if cached:`):
`None` and the empty string are falsy. -/
def pyTruthy : Option String → Bool
  | none => false
  | some s => !(s == "")

/-- Wrapper message of the outer `except` of `generate_video_segment`
(video_generator.py line 127). -/
def segmentErrorMessage (segment_index : ℕ) (cause : String) : String :=
  "Failed to generate video segment " ++ toString segment_index ++ ": " ++ cause

/-- Embeds `generate_segment_worker` (video_generator.py lines 160-173):
the per-segment job is an oracle giving either the produced path or the
message of the exception raised by `generate_video_segment`, which is
always wrapped by `segmentErrorMessage`; the worker catches it and returns
the `(index, path, error)` triple. -/
def generate_segment_worker (job : ℕ → Except String String) (i : ℕ) :
    ℕ × Option String × Option String :=
  match job i with
  | .ok path => (i, some path, none)
  | .error e => (i, none, some (segmentErrorMessage i e))

/-- Embeds the `as_completed` loop of `generate_all_videos`
(video_generator.py lines 184-193): completed job results are consumed in
completion order; a truthy error raises immediately; otherwise the path is
stored in the results dict keyed by index (newest binding first). -/
def collectLoop (job : ℕ → Except String String) :
    List ℕ → List (ℕ × Option String) → Except String (List (ℕ × Option String))
  | [], video_results => .ok video_results
  | i :: rest, video_results =>
    let r := generate_segment_worker job i
    if pyTruthy r.2.2 then
      .error ("Failed to generate segment " ++ toString r.1 ++ ": " ++ r.2.2.getD "")
    else
      collectLoop job rest ((r.1, r.2.1) :: video_results)

/-- Embeds the final comprehension `[video_results[i] for i in range(n)]`
(video_generator.py line 196); a missing key is a `KeyError`, modelled as
`none`. -/
def lookupAll (video_results : List (ℕ × Option String)) :
    List ℕ → Option (List (Option String))
  | [] => some []
  | i :: rest =>
    match List.lookup i video_results, lookupAll video_results rest with
    | some v, some vs => some (v :: vs)
    | _, _ => none

/-- Embeds `generate_all_videos` (video_generator.py lines 130-199) for a
batch of `n` segments whose jobs complete in `completion_order`. -/
def generate_all_videos (job : ℕ → Except String String) (n : ℕ)
    (completion_order : List ℕ) : Except String (List (Option String)) :=
  match collectLoop job completion_order [] with
  | .error e => .error e
  | .ok video_results =>
    match lookupAll video_results (List.range n) with
    | some paths => .ok paths
    | none => .error "KeyError"

/-! ### Per-segment retry protocol — src/utils/video_generator.py -/

/-- Outcome of one attempt of a leg of `generate_video_segment`: success,
an exception of the transient class caught at lines 94 and 112
(`TimeoutError`, `requests.exceptions.Timeout`, `OSError`), or any other
exception, which the inner `except` clauses do not catch (respectively
re-raise immediately, as with `AttributeError` at line 89). -/
inductive AttemptResult where
  | success
  | transient (msg : String)
  | fatal (msg : String)
deriving DecidableEq

/-- Embeds the submit+poll retry loop of `generate_video_segment`
(video_generator.py lines 57-100): called with `attempt = 0`,
`remaining = max_retries = 3`, `retry_delay = 5`. Returns the final
outcome, the list of sleeps performed between attempts, and the list of
attempt indices actually executed. A transient failure with
`attempt < max_retries - 1` sleeps `retry_delay` and doubles it; the last
attempt's transient failure raises `Failed after 3 attempts`. -/
def retryRun (outcome : ℕ → AttemptResult) (attempt : ℕ) :
    ℕ → ℕ → Except String ℕ × List ℕ × List ℕ
  | 0, _ => (.error "", [], [])
  | remaining + 1, retry_delay =>
    match outcome attempt with
    | .success => (.ok attempt, [], [attempt])
    | .fatal m => (.error m, [], [attempt])
    | .transient m =>
      if 0 < remaining then
        let next := retryRun outcome (attempt + 1) remaining (retry_delay * 2)
        (next.1, retry_delay :: next.2.1, attempt :: next.2.2)
      else
        (.error ("Failed after 3 attempts: " ++ m), [], [attempt])

/-- Embeds the download retry loop of `generate_video_segment`
(video_generator.py lines 102-117): called with `attempt = 0`,
`remaining = download_retries = 3`; the delay is a fixed `5` with no
growth; the last attempt's transient failure raises `Failed to download
video after 3 attempts`. -/
def downloadRun (outcome : ℕ → AttemptResult) (attempt : ℕ) :
    ℕ → Except String ℕ × List ℕ × List ℕ
  | 0 => (.error "", [], [])
  | remaining + 1 =>
    match outcome attempt with
    | .success => (.ok attempt, [], [attempt])
    | .fatal m => (.error m, [], [attempt])
    | .transient m =>
      if 0 < remaining then
        let next := downloadRun outcome (attempt + 1) remaining
        (next.1, 5 :: next.2.1, attempt :: next.2.2)
      else
        (.error ("Failed to download video after 3 attempts: " ++ m), [], [attempt])

/-- Embeds the body of `generate_video_segment` (video_generator.py lines
54-127) with the two legs driven by outcome oracles: the download leg runs
only after the submit+poll leg succeeds, and either leg's terminal error is
wrapped by the outer `except` into `segmentErrorMessage`. Returns the
job's outcome together with the sleeps of the submit leg and of the
download leg. -/
def generate_video_segment_run (segment_index : ℕ)
    (submit download : ℕ → AttemptResult) : Except String Unit × List ℕ × List ℕ :=
  let s := retryRun submit 0 3 5
  match s.1 with
  | .error m => (.error (segmentErrorMessage segment_index m), s.2.1, [])
  | .ok _ =>
    let d := downloadRun download 0 3
    match d.1 with
    | .error m => (.error (segmentErrorMessage segment_index m), s.2.1, d.2.1)
    | .ok _ => (.ok (), s.2.1, d.2.1)

/-! ### Cache store and lyrics stage — src/utils/cache_manager.py,
src/utils/llm_handler.py -/

/-- On-disk cache modelled as an association list from `(cache_key,
result_type)` — one independent file per pair — to the stored content,
newest write first. -/
abbrev CacheState := List ((String × String) × String)

/-- Embeds `get_cache_key` (cache_manager.py lines 17-29): a deterministic
serialization of the arguments; the MD5 hashing of the serialized string
is modelled as the identity, since the claims depend only on the key being
a deterministic function of the arguments. -/
def get_cache_key (args : List String) : String :=
  String.intercalate "|" args

/-- Embeds `get_cached_result` (cache_manager.py lines 32-58) for the
`text` kind: the content of the cache file if it exists, else `None`. -/
def get_cached_result (cache : CacheState) (cache_key result_type : String) :
    Option String :=
  List.lookup (cache_key, result_type) cache

/-- Embeds `save_to_cache` (cache_manager.py lines 61-81): (over)writes the
file for this `(key, type)` pair. -/
def save_to_cache (cache : CacheState) (cache_key result_type result : String) :
    CacheState :=
  ((cache_key, result_type), result) :: cache

/-- Embeds `generate_lyrics` (llm_handler.py lines 11-72). The remote
`completion` call is an oracle from `(prompt, model)` to the message
content; its result is stripped and truncated to 599 characters. Returns
the lyrics, the cache state after the call, and the number of remote calls
performed (0 or 1). A cached empty string is falsy (`if cached:`) and is
not treated as a hit. -/
def generate_lyrics (remote : String → String → String) (cache : CacheState)
    (prompt model : String) (use_cache : Bool) : String × CacheState × ℕ :=
  let cache_key := get_cache_key ["lyrics", prompt, model]
  let cached := if use_cache then get_cached_result cache cache_key "text" else none
  if pyTruthy cached then
    (cached.getD "", cache, 0)
  else
    let lyrics := pySlice (pyStrip (remote prompt model)) 599
    let cache2 := if use_cache then save_to_cache cache cache_key "text" lyrics else cache
    (lyrics, cache2, 1)

/-! ## Shared lemmas for the segment mapper -/

theorem map_to_video_segments_length (t : Transcription) (d : ℚ) :
    (map_to_video_segments t d).length = Int.toNat ⌈d / 8⌉ := by
  unfold map_to_video_segments
  split <;> simp

theorem map_to_video_segments_get (t : Transcription) (d : ℚ) (i : ℕ)
    (h : i < (map_to_video_segments t d).length) :
    (map_to_video_segments t d)[i] =
      ((i : ℚ) * 8, min (((i : ℚ) + 1) * 8) d,
        segmentText t ((i : ℚ) * 8) (min (((i : ℚ) + 1) * 8) d)) := by
  by_cases hempty : t.chunks.isEmpty
  · have hchunks : t.chunks = [] := List.isEmpty_iff.mp hempty
    simp only [map_to_video_segments, if_pos hempty, List.getElem_map, List.getElem_range]
    simp [segmentText, hchunks]
  · simp only [map_to_video_segments, if_neg hempty, List.getElem_map, List.getElem_range]

theorem ceil_windows_le (d : ℚ) (i : ℕ) (h : i + 1 < Int.toNat ⌈d / 8⌉) :
    ((i : ℚ) + 1) * 8 ≤ d := by
  have h1 : ((i + 1 : ℕ) : ℤ) < ⌈d / 8⌉ := Int.lt_toNat.mp h
  have h2 : ((i + 1 : ℕ) : ℚ) < d / 8 := by
    exact_mod_cast Int.lt_ceil.mp h1
  push_cast at h2
  linarith

theorem le_ceil_mul (d : ℚ) (hd : 0 < d) :
    d ≤ ((Int.toNat ⌈d / 8⌉ : ℚ)) * 8 := by
  have hpos : 0 < ⌈d / 8⌉ := Int.ceil_pos.mpr (by positivity)
  have hcast : ((Int.toNat ⌈d / 8⌉ : ℤ) : ℚ) = ((⌈d / 8⌉ : ℤ) : ℚ) := by
    exact_mod_cast congrArg (fun z : ℤ => (z : ℚ)) (Int.toNat_of_nonneg hpos.le)
  have h2 : d / 8 ≤ ((⌈d / 8⌉ : ℤ) : ℚ) := Int.le_ceil _
  have h3 : ((Int.toNat ⌈d / 8⌉ : ℕ) : ℚ) = ((⌈d / 8⌉ : ℤ) : ℚ) := by exact_mod_cast hcast
  rw [h3]
  linarith

/-! ## Claim C1 -/

/-- C1: for every `total_duration > 0`, `map_to_video_segments` returns
exactly `ceil(total_duration/8)` segments; segment `i` spans
`[i*8, min((i+1)*8, total_duration))`; the starts are strictly increasing;
the windows are gapless (each window's start equals the previous window's
end); the last window's end equals `total_duration`; for
`total_duration ≤ 0` it returns zero segments. -/
theorem map_to_video_segments_window_arithmetic (t : Transcription) (d : ℚ) :
    ((0 : ℚ) < d →
      ((map_to_video_segments t d).length : ℤ) = ⌈d / 8⌉ ∧
      (∀ i (h : i < (map_to_video_segments t d).length),
        ((map_to_video_segments t d).get ⟨i, h⟩).1 = (i : ℚ) * 8 ∧
        ((map_to_video_segments t d).get ⟨i, h⟩).2.1 = min (((i : ℚ) + 1) * 8) d) ∧
      (∀ i j (hi : i < (map_to_video_segments t d).length)
          (hj : j < (map_to_video_segments t d).length), i < j →
        ((map_to_video_segments t d).get ⟨i, hi⟩).1 <
          ((map_to_video_segments t d).get ⟨j, hj⟩).1) ∧
      (∀ i (h : i + 1 < (map_to_video_segments t d).length),
        ((map_to_video_segments t d).get ⟨i + 1, h⟩).1 =
          ((map_to_video_segments t d).get ⟨i, Nat.lt_of_succ_lt h⟩).2.1) ∧
      (∀ hne : map_to_video_segments t d ≠ [],
        ((map_to_video_segments t d).getLast hne).2.1 = d)) ∧
    (d ≤ 0 → map_to_video_segments t d = []) := by
  constructor
  · intro hd
    refine ⟨?_, ?_, ?_, ?_, ?_⟩
    · rw [map_to_video_segments_length]
      exact Int.toNat_of_nonneg (le_of_lt (Int.ceil_pos.mpr (by positivity)))
    · intro i h
      simp [List.get_eq_getElem, map_to_video_segments_get]
    · intro i j hi hj hij
      simp only [List.get_eq_getElem, map_to_video_segments_get]
      have : (i : ℚ) < (j : ℚ) := by exact_mod_cast hij
      linarith
    · intro i h
      simp only [List.get_eq_getElem, map_to_video_segments_get]
      have hlt : i + 1 < Int.toNat ⌈d / 8⌉ := by
        rwa [map_to_video_segments_length] at h
      have := ceil_windows_le d i hlt
      simp only [min_eq_left this]
      push_cast
      ring
    · intro hne
      have hlen : 0 < (map_to_video_segments t d).length :=
        List.length_pos.mpr hne
      rw [List.getLast_eq_getElem, map_to_video_segments_get]
      have hlast : ((((map_to_video_segments t d).length - 1 : ℕ) : ℚ) + 1) =
          ((Int.toNat ⌈d / 8⌉ : ℕ) : ℚ) := by
        rw [map_to_video_segments_length] at hlen ⊢
        have : (Int.toNat ⌈d / 8⌉ - 1) + 1 = Int.toNat ⌈d / 8⌉ :=
          Nat.succ_pred_eq_of_pos hlen
        exact_mod_cast congrArg (fun n : ℕ => (n : ℚ)) this
      rw [hlast]
      exact min_eq_right (le_ceil_mul d hd)
  · intro hd
    have hz : Int.toNat ⌈d / 8⌉ = 0 := by
      rw [Int.toNat_eq_zero]
      calc ⌈d / 8⌉ ≤ ⌈(0 : ℚ)⌉ := Int.ceil_le_ceil (by linarith)
        _ = 0 := by simp
    unfold map_to_video_segments
    split <;> simp [hz]

/-- Witness for C1, at `total_duration = 12` and at `total_duration = -3`. -/
theorem map_to_video_segments_window_arithmetic_witness :
    (((map_to_video_segments ⟨"w", []⟩ 12).length : ℤ) = ⌈(12 : ℚ) / 8⌉ ∧
      ∀ hne : map_to_video_segments ⟨"w", []⟩ 12 ≠ [],
        ((map_to_video_segments ⟨"w", []⟩ 12).getLast hne).2.1 = 12) ∧
    map_to_video_segments ⟨"w", []⟩ (-3) = [] :=
  ⟨⟨((map_to_video_segments_window_arithmetic ⟨"w", []⟩ 12).1 (by norm_num)).1,
    ((map_to_video_segments_window_arithmetic ⟨"w", []⟩ 12).1 (by norm_num)).2.2.2.2⟩,
   (map_to_video_segments_window_arithmetic ⟨"w", []⟩ (-3)).2 (by norm_num)⟩

/-! ## Claim C3 -/

/-- C3: a chunk with timestamp `[cs, ce]` is assigned to window `[ws, we)`
iff `cs < we` and `ce > ws` (half-open overlap; boundary-touching chunks
are excluded, e.g. chunk `[2,3)` overlaps window `[0,8)` but not `[8,16)`,
and chunk `[8,9)` overlaps `[8,16)` but not `[0,8)`); the window's text is
the space-joined concatenation of the overlapping chunks' stripped texts
in their original chunk order (a sublist of the stripped chunk texts). -/
theorem map_to_video_segments_overlap_matching :
    (∀ (ws we : ℚ) (c : Chunk) (cs ce : ℚ), c.timestamp = (some cs, some ce) →
      (overlapsWindow ws we c = true ↔ (cs < we ∧ ce > ws))) ∧
    (∀ (t : Transcription) (d : ℚ) (i : ℕ) (h : i < (map_to_video_segments t d).length),
      ((t.chunks.filter (overlapsWindow ((i : ℚ) * 8) (min (((i : ℚ) + 1) * 8) d))).map
          (fun c => pyStrip c.text)) ≠ [] →
        (((map_to_video_segments t d).get ⟨i, h⟩).2.2 =
          String.intercalate " "
            ((t.chunks.filter (overlapsWindow ((i : ℚ) * 8) (min (((i : ℚ) + 1) * 8) d))).map
              (fun c => pyStrip c.text)) ∧
        List.Sublist
          ((t.chunks.filter (overlapsWindow ((i : ℚ) * 8) (min (((i : ℚ) + 1) * 8) d))).map
            (fun c => pyStrip c.text))
          (t.chunks.map (fun c => pyStrip c.text)))) ∧
    (map_to_video_segments ⟨"full", [⟨"a", (some 2, some 3)⟩, ⟨"b", (some 8, some 9)⟩]⟩ 16 =
      [(0, 8, "a"), (8, 16, "b")]) ∧
    (overlapsWindow 0 8 ⟨"a", (some 2, some 3)⟩ = true ∧
     overlapsWindow 8 16 ⟨"a", (some 2, some 3)⟩ = false ∧
     overlapsWindow 8 16 ⟨"b", (some 8, some 9)⟩ = true ∧
     overlapsWindow 0 8 ⟨"b", (some 8, some 9)⟩ = false) := by
  refine ⟨?_, ?_, ?_, ?_⟩
  · intro ws we c cs ce hts
    simp [overlapsWindow, hts]
  · intro t d i h hne
    constructor
    · simp only [List.get_eq_getElem, map_to_video_segments_get, segmentText]
      rw [if_neg (by simpa [List.isEmpty_iff] using hne)]
    · exact List.Sublist.map _ (List.filter_sublist _)
  · have hceil : (⌈(16 : ℚ) / 8⌉ : ℤ) = 2 := by
      norm_num [Int.ceil_eq_iff]
    have hone : pyStrip "a" = "a" := rfl
    have htwo : pyStrip "b" = "b" := rfl
    simp only [map_to_video_segments, hceil]
    rw [show Int.toNat 2 = 2 from rfl, show List.range 2 = [0, 1] from rfl]
    norm_num [segmentText, overlapsWindow, hone, htwo, String.intercalate,
      String.intercalate.go]
  · refine ⟨?_, ?_, ?_, ?_⟩ <;> norm_num [overlapsWindow]

/-! ## Claim C7 -/

/-- C7: when the chunk list is empty, `map_to_video_segments` returns
`ceil(total_duration/8)` windows all carrying the full-transcript fallback
text verbatim (for `total_duration = 20`, three windows), with the same
window arithmetic as the normal path; and any window that no chunk
overlaps carries the fallback text. -/
theorem map_to_video_segments_fallback_text :
    (∀ (t : Transcription) (d : ℚ), t.chunks = [] →
      (map_to_video_segments t d).length = Int.toNat ⌈d / 8⌉ ∧
      ∀ s ∈ map_to_video_segments t d, s.2.2 = t.text) ∧
    (∀ (t : Transcription) (d : ℚ) (i : ℕ) (h : i < (map_to_video_segments t d).length),
      t.chunks.filter (overlapsWindow ((i : ℚ) * 8) (min (((i : ℚ) + 1) * 8) d)) = [] →
      ((map_to_video_segments t d).get ⟨i, h⟩).2.2 = t.text) ∧
    (∀ full_text : String, map_to_video_segments ⟨full_text, []⟩ 20 =
      [(0, 8, full_text), (8, 16, full_text), (16, 20, full_text)]) := by
  refine ⟨?_, ?_, ?_⟩
  · intro t d hchunks
    refine ⟨map_to_video_segments_length t d, ?_⟩
    intro s hs
    have hempty : t.chunks.isEmpty := List.isEmpty_iff.mpr hchunks
    simp only [map_to_video_segments, if_pos hempty, List.mem_map] at hs
    obtain ⟨i, _, rfl⟩ := hs
    rfl
  · intro t d i h hfilter
    simp only [List.get_eq_getElem, map_to_video_segments_get, segmentText]
    rw [if_pos (by simp [hfilter])]
  · intro full_text
    have hceil : (⌈(20 : ℚ) / 8⌉ : ℤ) = 3 := by
      norm_num [Int.ceil_eq_iff]
    simp only [map_to_video_segments, hceil]
    rw [show Int.toNat 3 = 3 from rfl, show List.range 3 = [0, 1, 2] from rfl]
    norm_num [min_def]

/-- Witness for C3: chunk `[2,3]` against window `[0,8)`, and the
order-preservation part at segment 0 of a concrete transcription. -/
theorem map_to_video_segments_overlap_matching_witness :
    (overlapsWindow 0 8 ⟨"a", (some 2, some 3)⟩ = true ↔ ((2 : ℚ) < 8 ∧ (3 : ℚ) > 0)) ∧
    List.Sublist
      (((Transcription.mk "full" [⟨"a", (some 2, some 3)⟩, ⟨"b", (some 8, some 9)⟩]).chunks.filter
          (overlapsWindow (((0 : ℕ) : ℚ) * 8) (min ((((0 : ℕ) : ℚ) + 1) * 8) 16))).map
        (fun c => pyStrip c.text))
      ((Transcription.mk "full" [⟨"a", (some 2, some 3)⟩, ⟨"b", (some 8, some 9)⟩]).chunks.map
        (fun c => pyStrip c.text)) :=
  ⟨map_to_video_segments_overlap_matching.1 0 8 ⟨"a", (some 2, some 3)⟩ 2 3 rfl,
   (map_to_video_segments_overlap_matching.2.1
      ⟨"full", [⟨"a", (some 2, some 3)⟩, ⟨"b", (some 8, some 9)⟩]⟩ 16 0
      (by
        rw [map_to_video_segments_length,
          show (⌈(16 : ℚ) / 8⌉ : ℤ) = 2 from by norm_num [Int.ceil_eq_iff]]
        norm_num)
      (by norm_num [overlapsWindow])).2⟩

/-- Witness for C7 at the empty chunk list with `total_duration = 20`. -/
theorem map_to_video_segments_fallback_text_witness :
    (map_to_video_segments ⟨"w", []⟩ 20).length = Int.toNat ⌈(20 : ℚ) / 8⌉ ∧
    ∀ s ∈ map_to_video_segments ⟨"w", []⟩ 20, s.2.2 = "w" :=
  map_to_video_segments_fallback_text.1 ⟨"w", []⟩ 20 rfl

/-! ## Shared lemmas for the assembler -/

theorem retainClips_eq_nil_iff (ds : List ℚ) (s t : ℚ) :
    retainClips ds s t = [] ↔ (ds = [] ∨ s - t ≤ 0) := by
  cases ds with
  | nil => simp [retainClips]
  | cons d rest =>
    simp only [retainClips]
    split_ifs with h1
    · simp [h1]
    · simp [h1]

theorem retainClips_sum_eq : ∀ (ds : List ℚ) (s t : ℚ), (∀ x ∈ ds, 0 ≤ x) →
    (retainClips ds s t).sum = max (min (s - t) ds.sum) 0
  | [], s, t, _ => by
    simp only [retainClips, List.sum_nil]
    rcases le_total (s - t) 0 with h | h
    · rw [min_eq_left (by simpa using h), max_eq_right h]
    · rw [min_eq_right (by simpa using h)]
      simp
  | d :: rest, s, t, h => by
    have hd : 0 ≤ d := h d (by simp)
    have hrest : ∀ x ∈ rest, 0 ≤ x := fun x hx => h x (by simp [hx])
    have hsum : 0 ≤ rest.sum := List.sum_nonneg hrest
    simp only [retainClips, List.sum_cons]
    split_ifs with h1 h2
    · rw [max_eq_right (le_trans (min_le_left _ _) h1)]
      simp
    · rw [List.sum_cons, retainClips_sum_eq rest s (t + (s - t)) hrest]
      have e0 : s - (t + (s - t)) = 0 := by ring
      rw [e0, min_eq_left hsum, max_self]
      have e1 : min (s - t) (d + rest.sum) = s - t := min_eq_left (by linarith)
      rw [e1, max_eq_left (by linarith)]
      ring
    · rw [List.sum_cons, retainClips_sum_eq rest s (t + d) hrest]
      have e0 : s - (t + d) = s - t - d := by ring
      rw [e0]
      have hmin : (0 : ℚ) ≤ min (s - t - d) rest.sum := le_min (by linarith) hsum
      rw [max_eq_left hmin]
      rcases le_total (s - t - d) rest.sum with hc | hc
      · rw [min_eq_left hc, min_eq_left (by linarith), max_eq_left (by linarith)]
        ring
      · rw [min_eq_right hc, min_eq_right (by linarith), max_eq_left (by linarith)]

theorem retainClips_append_of_le : ∀ (ds extra : List ℚ) (s t : ℚ),
    (∀ x ∈ ds, 0 ≤ x) → s - t ≤ ds.sum →
    retainClips (ds ++ extra) s t = retainClips ds s t
  | [], extra, s, t, _, hle => by
    cases extra with
    | nil => rfl
    | cons e rest =>
      simp only [List.sum_nil] at hle
      simp only [List.nil_append, retainClips]
      rw [if_pos hle]
  | d :: rest, extra, s, t, h, hle => by
    have hrest : ∀ x ∈ rest, 0 ≤ x := fun x hx => h x (by simp [hx])
    have hsum : 0 ≤ rest.sum := List.sum_nonneg hrest
    simp only [List.sum_cons] at hle
    simp only [List.cons_append, retainClips]
    split_ifs with h1 h2
    · rfl
    · exact congrArg _ (retainClips_append_of_le rest extra s (t + (s - t)) hrest (by linarith))
    · exact congrArg _ (retainClips_append_of_le rest extra s (t + d) hrest (by linarith))

/-! ## Claim C2 -/

/-- C2 counterexample: a single 5-second clip with `song_duration = 12`
(and a 12-second audio track) does not make `stitch_videos` fail — it
succeeds and writes a video whose visual duration is 5 seconds, shorter
than `song_duration`. -/
theorem stitch_videos_short_counterexample :
    stitch_videos [5] 12 12 = .ok 5 ∧ (5 : ℚ) < 12 := by
  constructor
  · norm_num [stitch_videos, retainClips]
  · norm_num

/-- C2 (amended): an empty clip list — or a non-positive `song_duration`,
which retains no clip — makes `stitch_videos` fail with an error before
any output is written; but when the clips' total duration never reaches
`song_duration` (and at least one clip is retained) the call does not
fail: it succeeds with visual duration `min (min song_duration total) audio`
— shorter than `song_duration` when the clips run out early — never padded
beyond the clips' total nor beyond the audio duration. -/
theorem stitch_videos_empty_error_no_padding :
    (∀ (ds : List ℚ) (audio_duration s : ℚ),
      ((∃ e, stitch_videos ds audio_duration s = .error e) ↔ (ds = [] ∨ s ≤ 0))) ∧
    (∀ (ds : List ℚ) (audio_duration s : ℚ), (∀ x ∈ ds, 0 ≤ x) → ds ≠ [] → 0 < s →
      stitch_videos ds audio_duration s = .ok (min (min s ds.sum) audio_duration)) := by
  constructor
  · intro ds audio_duration s
    simp only [stitch_videos]
    rcases hnil : retainClips ds s 0 with _ | ⟨c, cs⟩
    · have hcond := (retainClips_eq_nil_iff ds s 0).mp hnil
      simp only [sub_zero] at hcond
      simp [hcond]
    · have hcond : ¬(ds = [] ∨ s ≤ 0) := by
        intro hor
        have h2 := (retainClips_eq_nil_iff ds s 0).mpr (by simpa [sub_zero] using hor)
        rw [hnil] at h2
        exact List.cons_ne_nil _ _ h2
      simp [hcond]
  · intro ds audio_duration s hpos hne hs
    have hsum : 0 ≤ ds.sum := List.sum_nonneg hpos
    have hnil : retainClips ds s 0 ≠ [] := by
      rw [Ne, retainClips_eq_nil_iff]
      push_neg
      exact ⟨hne, by linarith⟩
    simp only [stitch_videos]
    rw [if_neg (by simpa [List.isEmpty_iff] using hnil)]
    rw [retainClips_sum_eq ds s 0 hpos]
    have e0 : max (min (s - 0) ds.sum) 0 = min s ds.sum := by
      rw [sub_zero]
      exact max_eq_left (le_min hs.le hsum)
    rw [e0]
    rcases lt_or_le audio_duration (min s ds.sum) with hlt | hle
    · rw [if_pos hlt, min_eq_right hlt.le]
    · rw [if_neg (not_lt.mpr hle), min_eq_left hle]

/-- Witness for the amended C2: three retained seconds of a four-second
clip against a ten-second audio track. -/
theorem stitch_videos_empty_error_no_padding_witness :
    stitch_videos [4] 10 3 = .ok (min (min 3 (List.sum [4])) 10) :=
  stitch_videos_empty_error_no_padding.2 [4] 10 3 (by norm_num) (by simp) (by norm_num)

/-! ## Claim C6 -/

/-- C6: `stitch_videos` walks the clip list in order accumulating
durations; once the running total would exceed `song_duration` the current
clip is trimmed to exactly the remaining duration and no further clip is
consumed (appending extra clips changes nothing once the retained ones
reach the target); the retained total is `max (min song_duration total) 0`;
for clips `[5,5,5]` and `song_duration = 12` it retains `[5,5,2]` and the
output visual duration is exactly 12. -/
theorem stitch_videos_walk_and_trim :
    (∀ (ds extra : List ℚ) (s : ℚ), (∀ x ∈ ds, 0 ≤ x) → s ≤ ds.sum →
      retainClips (ds ++ extra) s 0 = retainClips ds s 0) ∧
    (∀ (ds : List ℚ) (s : ℚ), (∀ x ∈ ds, 0 ≤ x) →
      (retainClips ds s 0).sum = max (min s ds.sum) 0) ∧
    (retainClips [5, 5, 5] 12 0 = [5, 5, 2] ∧
      stitch_videos [5, 5, 5] 12 12 = .ok 12) := by
  refine ⟨?_, ?_, ?_, ?_⟩
  · intro ds extra s h hle
    exact retainClips_append_of_le ds extra s 0 h (by simpa using hle)
  · intro ds s h
    rw [retainClips_sum_eq ds s 0 h, sub_zero]
  · norm_num [retainClips]
  · norm_num [stitch_videos, retainClips]

/-- Witness for C6: clips `[5,5,5]` with extra clips `[7]` appended and
`song_duration = 12`. -/
theorem stitch_videos_walk_and_trim_witness :
    retainClips ([5, 5, 5] ++ [7]) 12 0 = retainClips [5, 5, 5] 12 0 ∧
    (retainClips [5, 5, 5] 12 0).sum = max (min 12 (List.sum [5, 5, 5])) 0 :=
  ⟨stitch_videos_walk_and_trim.1 [5, 5, 5] [7] 12 (by norm_num) (by norm_num),
   stitch_videos_walk_and_trim.2.1 [5, 5, 5] 12 (by norm_num)⟩

/-! ## Shared lemmas for the collector -/

theorem segmentErrorMessage_ne_empty (i : ℕ) (c : String) :
    segmentErrorMessage i c ≠ "" := by
  intro h
  have hlen := congrArg String.length h
  have h33 : ("Failed to generate video segment ").length = 33 := rfl
  have h2 : (": ").length = 2 := rfl
  have h0 : ("").length = 0 := rfl
  simp only [segmentErrorMessage, String.length_append, h33, h2, h0] at hlen
  omega

theorem pyTruthy_segmentErrorMessage (i : ℕ) (c : String) :
    pyTruthy (some (segmentErrorMessage i c)) = true := by
  simp [pyTruthy, segmentErrorMessage_ne_empty i c]

theorem collectLoop_ok (job : ℕ → Except String String) (path : ℕ → String) :
    ∀ (order : List ℕ) (acc : List (ℕ × Option String)),
      (∀ i ∈ order, job i = .ok (path i)) →
      collectLoop job order acc =
        .ok ((order.reverse.map (fun i => (i, some (path i)))) ++ acc)
  | [], acc, _ => by simp [collectLoop]
  | i :: rest, acc, h => by
    have hi := h i (by simp)
    have hrest : ∀ j ∈ rest, job j = .ok (path j) := fun j hj => h j (by simp [hj])
    simp only [collectLoop, generate_segment_worker, hi, pyTruthy, Bool.false_eq_true,
      if_false]
    rw [collectLoop_ok job path rest ((i, some (path i)) :: acc) hrest]
    simp

theorem collectLoop_error (job : ℕ → Except String String) (path : ℕ → String)
    (j : ℕ) (e : String) (hj : job j = .error e) :
    ∀ (pre post : List ℕ) (acc : List (ℕ × Option String)),
      (∀ i ∈ pre, job i = .ok (path i)) →
      collectLoop job (pre ++ j :: post) acc =
        .error ("Failed to generate segment " ++ toString j ++ ": " ++
          segmentErrorMessage j e)
  | [], post, acc, _ => by
    simp only [List.nil_append, collectLoop, generate_segment_worker, hj,
      pyTruthy_segmentErrorMessage, if_true]
    simp
  | i :: rest, post, acc, h => by
    have hi := h i (by simp)
    have hrest : ∀ k ∈ rest, job k = .ok (path k) := fun k hk => h k (by simp [hk])
    simp only [List.cons_append, collectLoop, generate_segment_worker, hi, pyTruthy,
      Bool.false_eq_true, if_false]
    exact collectLoop_error job path j e hj rest post ((i, some (path i)) :: acc) hrest

theorem lookup_map_self (g : ℕ → Option String) :
    ∀ (l : List ℕ) (i : ℕ), i ∈ l →
      List.lookup i (l.map (fun j => (j, g j))) = some (g i)
  | [], i, h => by simp at h
  | j :: rest, i, h => by
    by_cases hij : i = j
    · subst hij
      simp [List.lookup]
    · have hmem : i ∈ rest := by
        rcases List.mem_cons.mp h with rfl | hmem
        · exact absurd rfl hij
        · exact hmem
      have hb : (i == j) = false := beq_eq_false_iff_ne.mpr hij
      simp only [List.map_cons, List.lookup, hb]
      exact lookup_map_self g rest i hmem

theorem lookupAll_eq (dict : List (ℕ × Option String)) (g : ℕ → Option String) :
    ∀ idxs : List ℕ, (∀ i ∈ idxs, List.lookup i dict = some (g i)) →
      lookupAll dict idxs = some (idxs.map g)
  | [], _ => rfl
  | i :: rest, h => by
    have hi := h i (by simp)
    have hrest := lookupAll_eq dict g rest (fun k hk => h k (by simp [hk]))
    simp only [lookupAll, hi, hrest, List.map_cons]

/-! ## Claim C4 -/

/-- C4: `generate_all_videos` returns the per-segment paths strictly
ascending by segment index for every completion order (any permutation of
the indices): position `i` of the returned list is the path produced for
segment `i`. -/
theorem generate_all_videos_ordered
    (job : ℕ → Except String String) (path : ℕ → String) (n : ℕ)
    (completion_order : List ℕ)
    (hperm : completion_order.Perm (List.range n))
    (hjob : ∀ i ∈ completion_order, job i = .ok (path i)) :
    generate_all_videos job n completion_order =
      .ok ((List.range n).map (fun i => some (path i))) := by
  unfold generate_all_videos
  rw [collectLoop_ok job path completion_order [] hjob, List.append_nil]
  dsimp only
  have hlookup : ∀ i ∈ List.range n,
      List.lookup i (completion_order.reverse.map (fun j => (j, some (path j)))) =
        some (some (path i)) := by
    intro i hi
    exact lookup_map_self _ completion_order.reverse i
      (List.mem_reverse.mpr (hperm.mem_iff.mpr hi))
  rw [lookupAll_eq _ _ (List.range n) hlookup]


/-- Witness for C4: three jobs completing in reverse-index order. -/
theorem generate_all_videos_ordered_witness :
    generate_all_videos (fun i => .ok (toString i)) 3 [2, 1, 0] =
      .ok ((List.range 3).map (fun i => some (toString i))) :=
  generate_all_videos_ordered (fun i => .ok (toString i)) (fun i => toString i) 3
    [2, 1, 0] (by decide) (by intro i _; rfl)

/-! ## Claim C5 -/

/-- C5: if any segment job ultimately fails, the whole
`generate_all_videos` call fails with an error carrying the first observed
per-segment error (in completion order), and no partial path list is
returned. -/
theorem generate_all_videos_fail_atomic
    (job : ℕ → Except String String) (path : ℕ → String) (n : ℕ)
    (pre post : List ℕ) (j : ℕ) (e : String)
    (hpre : ∀ i ∈ pre, job i = .ok (path i))
    (hj : job j = .error e) :
    generate_all_videos job n (pre ++ j :: post) =
      .error ("Failed to generate segment " ++ toString j ++ ": " ++
        segmentErrorMessage j e) := by
  unfold generate_all_videos
  rw [collectLoop_error job path j e hj pre post [] hpre]

/-- Witness for C5: two jobs, the failing one completing first. -/
theorem generate_all_videos_fail_atomic_witness :
    generate_all_videos (fun i => if i = 0 then .ok "p0" else .error "boom") 2
      ([] ++ 1 :: [0]) =
      .error ("Failed to generate segment " ++ toString 1 ++ ": " ++
        segmentErrorMessage 1 "boom") :=
  generate_all_videos_fail_atomic (fun i => if i = 0 then .ok "p0" else .error "boom")
    (fun _ => "p0") 2 [] [0] 1 "boom" (by simp) (by simp)

/-! ## Claim C8 -/

/-- C8 counterexample: in the maximal-retry execution of the submit+poll
leg (every attempt failing transiently) the delays actually slept are
`[5, 10]` — two delays, not the claimed schedule `5s, 10s, 20s`; no
20-second delay ever occurs, because only two retries can follow the
three attempts. -/
theorem retry_delays_counterexample :
    (retryRun (fun _ => AttemptResult.transient "timeout") 0 3 5).2.1 = [5, 10] ∧
    (retryRun (fun _ => AttemptResult.transient "timeout") 0 3 5).2.1 ≠ [5, 10, 20] ∧
    ¬ (20 ∈ (retryRun (fun _ => AttemptResult.transient "timeout") 0 3 5).2.1) :=
  ⟨rfl, by decide, by decide⟩

/-- C8 (amended): the submit+poll leg makes at most 3 attempts, retried
only on the transient error class, sleeping 5s then 10s between attempts
(the backoff doubles, but the 20-second value would precede only a fourth
attempt that never occurs); a non-transient failure aborts immediately
with no retry; the download leg independently makes at most 3 attempts on
the same transient class with a fixed 5s delay; exhausting either leg is
the job's terminal error, wrapped for the whole job. -/
theorem generate_video_segment_retry_protocol :
    (∀ outcome : ℕ → AttemptResult, ∃ k, k ≤ 2 ∧
      (retryRun outcome 0 3 5).2.2 = List.range (k + 1) ∧
      (retryRun outcome 0 3 5).2.1 = List.take k [5, 10] ∧
      (∀ j, j < k → ∃ m, outcome j = AttemptResult.transient m)) ∧
    (∀ (outcome : ℕ → AttemptResult) (m : String), outcome 0 = .fatal m →
      retryRun outcome 0 3 5 = (.error m, [], [0])) ∧
    (∀ (outcome : ℕ → AttemptResult) (m0 m1 m2 : String),
      outcome 0 = .transient m0 → outcome 1 = .transient m1 →
      outcome 2 = .transient m2 →
      retryRun outcome 0 3 5 =
        (.error ("Failed after 3 attempts: " ++ m2), [5, 10], [0, 1, 2])) ∧
    (∀ outcome : ℕ → AttemptResult, ∃ k, k ≤ 2 ∧
      (downloadRun outcome 0 3).2.2 = List.range (k + 1) ∧
      (downloadRun outcome 0 3).2.1 = List.replicate k 5 ∧
      (∀ j, j < k → ∃ m, outcome j = AttemptResult.transient m)) ∧
    (∀ (i : ℕ) (submit download : ℕ → AttemptResult) (m : String),
      (retryRun submit 0 3 5).1 = .error m →
      generate_video_segment_run i submit download =
        (.error (segmentErrorMessage i m), (retryRun submit 0 3 5).2.1, [])) ∧
    (∀ (i : ℕ) (submit download : ℕ → AttemptResult) (a : ℕ) (m : String),
      (retryRun submit 0 3 5).1 = .ok a → (downloadRun download 0 3).1 = .error m →
      generate_video_segment_run i submit download =
        (.error (segmentErrorMessage i m), (retryRun submit 0 3 5).2.1,
          (downloadRun download 0 3).2.1)) := by
  refine ⟨?_, ?_, ?_, ?_, ?_, ?_⟩
  · intro outcome
    rcases h0 : outcome 0 with _ | m0 | m0
    · exact ⟨0, by norm_num, by simp [retryRun, h0, List.range_succ], by simp [retryRun, h0],
        fun j hj => absurd hj (Nat.not_lt_zero j)⟩
    · rcases h1 : outcome 1 with _ | m1 | m1
      · refine ⟨1, by norm_num, by simp [retryRun, h0, h1, List.range_succ],
          by simp [retryRun, h0, h1], ?_⟩
        intro j hj
        have : j = 0 := by omega
        exact this ▸ ⟨m0, h0⟩
      · rcases h2 : outcome 2 with _ | m2 | m2
        · refine ⟨2, le_refl 2, by simp [retryRun, h0, h1, h2, List.range_succ],
            by simp [retryRun, h0, h1, h2], ?_⟩
          intro j hj
          interval_cases j
          · exact ⟨m0, h0⟩
          · exact ⟨m1, h1⟩
        · refine ⟨2, le_refl 2, by simp [retryRun, h0, h1, h2, List.range_succ],
            by simp [retryRun, h0, h1, h2], ?_⟩
          intro j hj
          interval_cases j
          · exact ⟨m0, h0⟩
          · exact ⟨m1, h1⟩
        · refine ⟨2, le_refl 2, by simp [retryRun, h0, h1, h2, List.range_succ],
            by simp [retryRun, h0, h1, h2], ?_⟩
          intro j hj
          interval_cases j
          · exact ⟨m0, h0⟩
          · exact ⟨m1, h1⟩
      · refine ⟨1, by norm_num, by simp [retryRun, h0, h1, List.range_succ],
          by simp [retryRun, h0, h1], ?_⟩
        intro j hj
        have : j = 0 := by omega
        exact this ▸ ⟨m0, h0⟩
    · exact ⟨0, by norm_num, by simp [retryRun, h0, List.range_succ], by simp [retryRun, h0],
        fun j hj => absurd hj (Nat.not_lt_zero j)⟩
  · intro outcome m h0
    simp [retryRun, h0]
  · intro outcome m0 m1 m2 h0 h1 h2
    simp [retryRun, h0, h1, h2]
  · intro outcome
    rcases h0 : outcome 0 with _ | m0 | m0
    · exact ⟨0, by norm_num, by simp [downloadRun, h0, List.range_succ], by simp [downloadRun, h0],
        fun j hj => absurd hj (Nat.not_lt_zero j)⟩
    · rcases h1 : outcome 1 with _ | m1 | m1
      · refine ⟨1, by norm_num, by simp [downloadRun, h0, h1, List.range_succ],
          by simp [downloadRun, h0, h1], ?_⟩
        intro j hj
        have : j = 0 := by omega
        exact this ▸ ⟨m0, h0⟩
      · rcases h2 : outcome 2 with _ | m2 | m2
        · refine ⟨2, le_refl 2, by simp [downloadRun, h0, h1, h2, List.range_succ],
            by simp [downloadRun, h0, h1, h2, List.replicate], ?_⟩
          intro j hj
          interval_cases j
          · exact ⟨m0, h0⟩
          · exact ⟨m1, h1⟩
        · refine ⟨2, le_refl 2, by simp [downloadRun, h0, h1, h2, List.range_succ],
            by simp [downloadRun, h0, h1, h2, List.replicate], ?_⟩
          intro j hj
          interval_cases j
          · exact ⟨m0, h0⟩
          · exact ⟨m1, h1⟩
        · refine ⟨2, le_refl 2, by simp [downloadRun, h0, h1, h2, List.range_succ],
            by simp [downloadRun, h0, h1, h2, List.replicate], ?_⟩
          intro j hj
          interval_cases j
          · exact ⟨m0, h0⟩
          · exact ⟨m1, h1⟩
      · refine ⟨1, by norm_num, by simp [downloadRun, h0, h1, List.range_succ],
          by simp [downloadRun, h0, h1], ?_⟩
        intro j hj
        have : j = 0 := by omega
        exact this ▸ ⟨m0, h0⟩
    · exact ⟨0, by norm_num, by simp [downloadRun, h0, List.range_succ], by simp [downloadRun, h0],
        fun j hj => absurd hj (Nat.not_lt_zero j)⟩
  · intro i submit download m hm
    simp [generate_video_segment_run, hm]
  · intro i submit download a m hok hm
    simp [generate_video_segment_run, hok, hm]

/-- Witness for the amended C8: the all-transient submit+poll run and its
wrapped terminal job error. -/
theorem generate_video_segment_retry_protocol_witness :
    retryRun (fun _ => AttemptResult.transient "t") 0 3 5 =
      (.error ("Failed after 3 attempts: " ++ "t"), [5, 10], [0, 1, 2]) ∧
    generate_video_segment_run 7 (fun _ => AttemptResult.transient "t")
        (fun _ => AttemptResult.success) =
      (.error (segmentErrorMessage 7 ("Failed after 3 attempts: " ++ "t")),
        (retryRun (fun _ => AttemptResult.transient "t") 0 3 5).2.1, []) :=
  ⟨generate_video_segment_retry_protocol.2.2.1 (fun _ => AttemptResult.transient "t")
      "t" "t" "t" rfl rfl rfl,
   generate_video_segment_retry_protocol.2.2.2.2.1 7 (fun _ => AttemptResult.transient "t")
      (fun _ => AttemptResult.success) ("Failed after 3 attempts: " ++ "t") rfl⟩

/-! ## Shared lemmas for the cache and lyrics stage -/

theorem get_cached_result_save (cache : CacheState) (k ty v : String) :
    get_cached_result (save_to_cache cache k ty v) k ty = some v := by
  simp [get_cached_result, save_to_cache, List.lookup]

theorem generate_lyrics_hit (remote : String → String → String) (cache : CacheState)
    (prompt model s : String)
    (h : get_cached_result cache (get_cache_key ["lyrics", prompt, model]) "text" = some s)
    (hs : s ≠ "") :
    generate_lyrics remote cache prompt model true = (s, cache, 0) := by
  simp [generate_lyrics, h, pyTruthy, hs]

theorem generate_lyrics_miss (remote : String → String → String) (cache : CacheState)
    (prompt model : String)
    (h : pyTruthy (get_cached_result cache
      (get_cache_key ["lyrics", prompt, model]) "text") = false) :
    generate_lyrics remote cache prompt model true =
      (pySlice (pyStrip (remote prompt model)) 599,
       save_to_cache cache (get_cache_key ["lyrics", prompt, model]) "text"
         (pySlice (pyStrip (remote prompt model)) 599), 1) := by
  simp [generate_lyrics, h]

theorem pySlice_length_le (s : String) (n : ℕ) : (pySlice s n).length ≤ n := by
  simp only [pySlice, String.length, List.length_take]
  exact min_le_left _ _

/-! ## Claim C9 -/

/-- C9 counterexample: with a remote model that returns empty lyrics, two
identical cached calls perform the remote call twice, not once — the first
call caches `""`, but the empty cached string is falsy (`if cached:`), so
the second call misses and calls the remote service again. -/
theorem generate_lyrics_cache_counterexample :
    (generate_lyrics (fun _ _ => "") [] "p" "m" true).2.2 = 1 ∧
    (generate_lyrics (fun _ _ => "")
        (generate_lyrics (fun _ _ => "") [] "p" "m" true).2.1 "p" "m" true).2.2 = 1 ∧
    (generate_lyrics (fun _ _ => "") [] "p" "m" true).2.2 +
      (generate_lyrics (fun _ _ => "")
        (generate_lyrics (fun _ _ => "") [] "p" "m" true).2.1 "p" "m" true).2.2 ≠ 1 :=
  ⟨rfl, rfl, by decide⟩

/-- C9 (amended): calling `generate_lyrics` twice with identical prompt,
model and `use_cache = True` performs the remote call only once provided
the first call's stripped-and-truncated lyrics are non-empty — the first
call stores them in the cache and the second call reads the cache instead
of calling the remote service; an empty lyrics string is falsy and is
fetched again; in every case the second call's returned result equals the
first's. -/
theorem generate_lyrics_cache_once
    (remote : String → String → String) (cache : CacheState) (prompt model : String) :
    ((generate_lyrics remote
        (generate_lyrics remote cache prompt model true).2.1 prompt model true).1 =
      (generate_lyrics remote cache prompt model true).1) ∧
    (get_cached_result cache (get_cache_key ["lyrics", prompt, model]) "text" = none →
      pySlice (pyStrip (remote prompt model)) 599 ≠ "" →
      (generate_lyrics remote cache prompt model true).2.2 = 1 ∧
      (generate_lyrics remote
          (generate_lyrics remote cache prompt model true).2.1 prompt model true).2.2 = 0 ∧
      get_cached_result (generate_lyrics remote cache prompt model true).2.1
          (get_cache_key ["lyrics", prompt, model]) "text" =
        some (generate_lyrics remote cache prompt model true).1) := by
  constructor
  · by_cases htr : pyTruthy (get_cached_result cache
        (get_cache_key ["lyrics", prompt, model]) "text") = true
    · rcases hc : get_cached_result cache
          (get_cache_key ["lyrics", prompt, model]) "text" with _ | s
      · rw [hc] at htr
        simp [pyTruthy] at htr
      · rw [hc] at htr
        have hs : s ≠ "" := by
          intro hempty
          rw [hempty] at htr
          simp [pyTruthy] at htr
        rw [generate_lyrics_hit remote cache prompt model s hc hs]
        rw [generate_lyrics_hit remote cache prompt model s hc hs]
    · have hfalse : pyTruthy (get_cached_result cache
          (get_cache_key ["lyrics", prompt, model]) "text") = false := by
        simpa using htr
      rw [generate_lyrics_miss remote cache prompt model hfalse]
      by_cases hne : pySlice (pyStrip (remote prompt model)) 599 = ""
      · have h2 : pyTruthy (get_cached_result
            (save_to_cache cache (get_cache_key ["lyrics", prompt, model]) "text"
              (pySlice (pyStrip (remote prompt model)) 599))
            (get_cache_key ["lyrics", prompt, model]) "text") = false := by
          rw [get_cached_result_save, hne]
          simp [pyTruthy]
        rw [generate_lyrics_miss remote _ prompt model h2]
      · rw [generate_lyrics_hit remote _ prompt model _ (get_cached_result_save _ _ _ _) hne]
  · intro hcold hne
    have hfalse : pyTruthy (get_cached_result cache
        (get_cache_key ["lyrics", prompt, model]) "text") = false := by
      rw [hcold]
      simp [pyTruthy]
    rw [generate_lyrics_miss remote cache prompt model hfalse]
    refine ⟨rfl, ?_, ?_⟩
    · rw [generate_lyrics_hit remote _ prompt model _ (get_cached_result_save _ _ _ _) hne]
    · exact get_cached_result_save _ _ _ _

/-- Witness for the amended C9 on a cold cache with non-empty lyrics. -/
theorem generate_lyrics_cache_once_witness :
    (generate_lyrics (fun _ _ => " hi ") [] "p" "m" true).2.2 = 1 ∧
    (generate_lyrics (fun _ _ => " hi ")
        (generate_lyrics (fun _ _ => " hi ") [] "p" "m" true).2.1 "p" "m" true).2.2 = 0 ∧
    get_cached_result (generate_lyrics (fun _ _ => " hi ") [] "p" "m" true).2.1
        (get_cache_key ["lyrics", "p", "m"]) "text" =
      some (generate_lyrics (fun _ _ => " hi ") [] "p" "m" true).1 :=
  (generate_lyrics_cache_once (fun _ _ => " hi ") [] "p" "m").2 rfl (by decide)

/-! ## Claim C10 -/

/-- C10: `generate_lyrics` never returns a string longer than 599
characters: on a cache miss the model's lyrics are truncated to their
first 599 characters before being cached and returned, so — given that any
previously cached value at this key was itself stored truncated — every
value it returns has length at most 599, and every cache entry it adds has
length at most 599. -/
theorem generate_lyrics_truncates
    (remote : String → String → String) (cache : CacheState) (prompt model : String)
    (use_cache : Bool)
    (hwf : ∀ v, get_cached_result cache (get_cache_key ["lyrics", prompt, model]) "text" =
        some v → v.length ≤ 599) :
    (generate_lyrics remote cache prompt model use_cache).1.length ≤ 599 ∧
    (∀ entry ∈ (generate_lyrics remote cache prompt model use_cache).2.1,
      entry ∈ cache ∨ entry.2.length ≤ 599) := by
  cases use_cache with
  | false =>
    constructor
    · exact pySlice_length_le _ _
    · intro entry hentry
      exact Or.inl hentry
  | true =>
    rcases hc : get_cached_result cache (get_cache_key ["lyrics", prompt, model]) "text"
      with _ | s
    · have hfalse : pyTruthy (get_cached_result cache
          (get_cache_key ["lyrics", prompt, model]) "text") = false := by
        rw [hc]
        simp [pyTruthy]
      rw [generate_lyrics_miss remote cache prompt model hfalse]
      refine ⟨pySlice_length_le _ _, ?_⟩
      intro entry hentry
      rcases List.mem_cons.mp hentry with rfl | hmem
      · exact Or.inr (pySlice_length_le _ _)
      · exact Or.inl hmem
    · by_cases hs : s = ""
      · have hfalse : pyTruthy (get_cached_result cache
            (get_cache_key ["lyrics", prompt, model]) "text") = false := by
          rw [hc, hs]
          simp [pyTruthy]
        rw [generate_lyrics_miss remote cache prompt model hfalse]
        refine ⟨pySlice_length_le _ _, ?_⟩
        intro entry hentry
        rcases List.mem_cons.mp hentry with rfl | hmem
        · exact Or.inr (pySlice_length_le _ _)
        · exact Or.inl hmem
      · rw [generate_lyrics_hit remote cache prompt model s hc hs]
        exact ⟨hwf s hc, fun entry hentry => Or.inl hentry⟩

/-- Witness for C10: a model answer longer than 599 characters against an
empty cache. -/
theorem generate_lyrics_truncates_witness :
    (generate_lyrics (fun _ _ => String.mk (List.replicate 1000 'x')) [] "p" "m" true).1.length
      ≤ 599 :=
  (generate_lyrics_truncates (fun _ _ => String.mk (List.replicate 1000 'x')) [] "p" "m" true
    (by intro v h; simp [get_cached_result, List.lookup] at h)).1

end LLMTV
